import Mathlib

/-!
Shallow embedding of the `ramstore` package core (`RAMSessions` and its
helpers).  Go maps are reference values, so we model a heap of map objects:
an address is an index into a list of map contents, and a Go map variable is
an `Option Nat` (Go `nil` map is `none`).  Map contents are association
lists with the usual replace-or-append insertion, which matches Go map
lookup/assignment observationally (Go's iteration order is irrelevant to
lookups, which is all the code's copies are used for).  The injected clock
(`r.clock()`) is modelled by passing `now` explicitly to each operation,
once per operation, exactly where the Go code reads the clock.
-/

set_option linter.unusedSectionVars false

namespace Ramstore

variable {K V : Type} [DecidableEq K]

/-- Contents of one Go map object: an association list with the first
binding for a key the authoritative one. -/
abbrev BagContent (K V : Type) := List (K × V)

/-- Go map lookup `m[k]` (as an option). -/
def mapLookup (m : BagContent K V) (k : K) : Option V :=
  match m with
  | [] => none
  | (k', v) :: rest => if k' = k then some v else mapLookup rest k

/-- Go map assignment `m[k] = v`: replace the binding if present, else add. -/
def mapInsert (m : BagContent K V) (k : K) (v : V) : BagContent K V :=
  match m with
  | [] => [(k, v)]
  | (k', v') :: rest =>
      if k' = k then (k, v) :: rest else (k', v') :: mapInsert rest k v

/-- The heap of Go map objects.  An address is an index into `mem`;
`make(map[...]...)` appends a fresh object. -/
structure Heap (K V : Type) where
  mem : List (BagContent K V)

/-- Read the map object at address `a`. -/
def Heap.read (h : Heap K V) (a : Nat) : BagContent K V :=
  h.mem.getD a []

/-- Allocate a fresh map object holding `c`; returns the new heap and the
fresh address. -/
def Heap.alloc (h : Heap K V) (c : BagContent K V) : Heap K V × Nat :=
  (⟨h.mem ++ [c]⟩, h.mem.length)

/-- In-place mutation `m[k] = v` performed by a *caller* on the map object
at address `a` (the store itself never does this). -/
def Heap.mutate (h : Heap K V) (a : Nat) (k : K) (v : V) : Heap K V :=
  ⟨h.mem.set a (mapInsert (h.read a) k v)⟩

/-- The contents denoted by a Go map value: `nil` ranges as empty. -/
def bagContents (h : Heap K V) (bag : Option Nat) : BagContent K V :=
  match bag with
  | none => []
  | some a => h.read a

/-- `copyMap`: allocate a fresh map and copy every entry of `data` into it.
`range` over a `nil` map yields nothing, so the result is a fresh empty map
in that case; the result is never `nil`. -/
def copyMap (h : Heap K V) (data : Option Nat) : Heap K V × Nat :=
  h.alloc (bagContents h data)

/-- `ramSession`: a stored bag (always the result of `copyMap`, hence a
real address) and its last-access time in seconds. -/
structure RamSession where
  dataAddr : Nat
  lastAccessed : Int
  deriving DecidableEq

/-- `ramSession.Expired`: inactivity strictly exceeding `maxAge`. -/
def RamSession.Expired (r : RamSession) (now maxAge : Int) : Bool :=
  now - r.lastAccessed > maxAge

/-- The whole store state: the heap of map objects plus the fields of
`RAMSessions` (`data` map and `maxAge`; the mutex is a runtime artifact and
the clock is passed per call). -/
structure State (K V : Type) where
  heap : Heap K V
  data : List (String × RamSession)
  maxAge : Int

/-- `RAMSessions.get`: under the lock, look up `id`; absent gives `nil`;
otherwise `ramSession.Get(now, maxAge, updateLastAccessed)`: expired gives
`nil`, else optionally refresh `lastAccessed` and return the internal map.
The Go code mutates the `ramSession` struct in place; here the binding is
replaced, which is the same map afterwards. -/
def getInternal (st : State K V) (id : String) (updateLastAccessed : Bool)
    (now : Int) : State K V × Option Nat :=
  match mapLookup st.data id with
  | none => (st, none)
  | some s =>
      if s.Expired now st.maxAge then (st, none)
      else if updateLastAccessed then
        (⟨st.heap, mapInsert st.data id ⟨s.dataAddr, now⟩, st.maxAge⟩,
          some s.dataAddr)
      else (st, some s.dataAddr)

/-- `RAMSessions.Get`: `get(id, true)`, then `nil` stays `nil` and a found
internal map is handed out as a fresh shallow copy. -/
def Get (st : State K V) (id : String) (now : Int) : State K V × Option Nat :=
  match getInternal st id true now with
  | (st', none) => (st', none)
  | (st', some a) =>
      match copyMap st'.heap (some a) with
      | (h', a') => (⟨h', st'.data, st'.maxAge⟩, some a')

/-- `RAMSessions.Poll`: like `Get` but `get(id, false)`. -/
def Poll (st : State K V) (id : String) (now : Int) : State K V × Option Nat :=
  match getInternal st id false now with
  | (st', none) => (st', none)
  | (st', some a) =>
      match copyMap st'.heap (some a) with
      | (h', a') => (⟨h', st'.data, st'.maxAge⟩, some a')

/-- `RAMSessions.Save`: shallow-copy `data` first, then under the lock
install `&ramSession{copiedData, clock()}` for `id`. -/
def Save (st : State K V) (id : String) (data : Option Nat) (now : Int) :
    State K V :=
  match copyMap st.heap data with
  | (h', a) => ⟨h', mapInsert st.data id ⟨a, now⟩, st.maxAge⟩

/-- `RAMSessions.Purge`: under the lock, delete every entry expired at
`clock()`. -/
def Purge (st : State K V) (now : Int) : State K V :=
  ⟨st.heap,
    st.data.filter (fun p => !(p.2.Expired now st.maxAge)),
    st.maxAge⟩

/-- `RAMSessions.GetData`: returns `Get(id), nil`.  The Go `error` slot is
modelled as `Option String`, `none` being the `nil` error. -/
def GetData (st : State K V) (id : String) (now : Int) :
    State K V × (Option Nat × Option String) :=
  match Get st id now with
  | (st', r) => (st', (r, none))

/-- `RAMSessions.SaveData`: calls `Save(id, data)` and returns `nil`. -/
def SaveData (st : State K V) (id : String) (data : Option Nat) (now : Int) :
    State K V × Option String :=
  (Save st id data now, none)

/-- `poller.GetData` (the view built by `AsPoller`): returns
`Poll(id), nil`. -/
def pollerGetData (st : State K V) (id : String) (now : Int) :
    State K V × (Option Nat × Option String) :=
  match Poll st id now with
  | (st', r) => (st', (r, none))

/-- The contents a caller sees in an operation's result: `nil` or the
contents of the returned map object, read in the resulting heap. -/
def resultContent (p : State K V × Option Nat) : Option (BagContent K V) :=
  p.2.map p.1.heap.read

/-- Either `Get` or `Poll`, selected by a flag; used to state properties
shared by the two public read operations. -/
def fetch (u : Bool) (st : State K V) (id : String) (now : Int) :
    State K V × Option Nat :=
  if u then Get st id now else Poll st id now

/-- A sequence of `Poll`s of the same id at the given times, keeping only
the store state. -/
def pollMany (st : State K V) (id : String) (ts : List Int) : State K V :=
  ts.foldl (fun s t => (Poll s id t).1) st

/-- States reachable from a fresh store: every stored bag address is a real
heap object and the session keys are distinct (Go maps cannot hold a key
twice, and every stored address comes from `copyMap`). -/
def wf (st : State K V) : Bool :=
  st.data.all (fun p => p.2.dataAddr < st.heap.mem.length) &&
    ((st.data.map Prod.fst).Nodup : Bool)

/-! ### Basic lemmas about the association-list maps and the heap -/

@[simp]
theorem mapLookup_mapInsert_self (m : BagContent K V) (k : K) (v : V) :
    mapLookup (mapInsert m k v) k = some v := by
  induction m with
  | nil => simp [mapInsert, mapLookup]
  | cons p rest ih =>
      obtain ⟨k', v'⟩ := p
      by_cases h : k' = k <;> simp [mapInsert, mapLookup, h, ih]

theorem mapLookup_mapInsert_ne (m : BagContent K V) {k k' : K} (v : V)
    (h : k' ≠ k) : mapLookup (mapInsert m k v) k' = mapLookup m k' := by
  induction m with
  | nil => simp [mapInsert, mapLookup, Ne.symm h]
  | cons p rest ih =>
      obtain ⟨k₀, v₀⟩ := p
      by_cases h₀ : k₀ = k
      · subst h₀
        simp [mapInsert, mapLookup, h, Ne.symm h]
      · by_cases h₁ : k₀ = k'
        · subst h₁; simp [mapInsert, mapLookup, h₀]
        · simp [mapInsert, mapLookup, h₀, h₁, ih]

theorem mapLookup_isSome_mapInsert (m : BagContent K V) (k k' : K) (v : V)
    (hk : (mapLookup m k).isSome) :
    (mapLookup (mapInsert m k v) k').isSome = (mapLookup m k').isSome := by
  by_cases h : k' = k
  · subst h; simp [hk]
  · rw [mapLookup_mapInsert_ne m v h]

theorem Heap.read_alloc_fst (h : Heap K V) (c : BagContent K V) (a : Nat)
    (ha : a < h.mem.length) : (h.alloc c).1.read a = h.read a := by
  simp only [Heap.alloc, Heap.read]
  exact List.getD_append h.mem [c] [] a ha

theorem Heap.read_alloc_self (h : Heap K V) (c : BagContent K V) :
    (h.alloc c).1.read (h.alloc c).2 = c := by
  simp only [Heap.alloc, Heap.read]
  rw [List.getD_append_right h.mem [c] [] h.mem.length (Nat.le_refl _)]
  simp [List.getD]

theorem Heap.alloc_length (h : Heap K V) (c : BagContent K V) :
    (h.alloc c).1.mem.length = h.mem.length + 1 := by
  simp [Heap.alloc]

theorem Heap.read_mutate_ne (h : Heap K V) (a b : Nat) (k : K) (v : V)
    (hab : b ≠ a) : (h.mutate a k v).read b = h.read b := by
  simp only [Heap.mutate, Heap.read, List.getD_eq_getElem?_getD]
  rw [List.getElem?_set_ne (Ne.symm hab)]

theorem lookup_of_all {l : List (String × RamSession)}
    {p : String × RamSession → Bool} (hall : l.all p = true) {i : String}
    {s : RamSession} (h : mapLookup l i = some s) : p (i, s) = true := by
  induction l with
  | nil => simp [mapLookup] at h
  | cons q rest ih =>
      simp only [List.all_cons, Bool.and_eq_true] at hall
      obtain ⟨k₀, s₀⟩ := q
      by_cases hk : k₀ = i
      · subst hk
        simp [mapLookup] at h
        subst h
        exact hall.1
      · simp only [mapLookup, if_neg hk] at h
        exact ih hall.2 h

theorem wf_lookup {st : State K V} (hwf : wf st = true) {i : String}
    {s : RamSession} (h : mapLookup st.data i = some s) :
    s.dataAddr < st.heap.mem.length := by
  simp only [wf, Bool.and_eq_true] at hwf
  exact of_decide_eq_true (lookup_of_all hwf.1 h)

theorem wf_nodup {st : State K V} (hwf : wf st = true) :
    (st.data.map Prod.fst).Nodup := by
  simp only [wf, Bool.and_eq_true] at hwf
  exact of_decide_eq_true hwf.2

theorem mapLookup_none_of_not_mem {l : List (String × RamSession)}
    {i : String} (h : i ∉ l.map Prod.fst) : mapLookup l i = none := by
  induction l with
  | nil => simp [mapLookup]
  | cons q rest ih =>
      obtain ⟨k₀, s₀⟩ := q
      simp only [List.map_cons, List.mem_cons, not_or] at h
      simp only [mapLookup, if_neg (Ne.symm h.1)]
      exact ih h.2

/-- With distinct keys, looking up in a filtered session list gives the
original binding exactly when it passes the filter. -/
theorem mapLookup_filter (l : List (String × RamSession))
    (p : String × RamSession → Bool) (i : String)
    (hnd : (l.map Prod.fst).Nodup) :
    mapLookup (l.filter p) i =
      match mapLookup l i with
      | none => none
      | some s => if p (i, s) then some s else none := by
  induction l with
  | nil => simp [mapLookup]
  | cons q rest ih =>
      obtain ⟨k₀, s₀⟩ := q
      simp only [List.map_cons, List.nodup_cons] at hnd
      by_cases hk : k₀ = i
      · subst hk
        have hrest : mapLookup rest k₀ = none :=
          mapLookup_none_of_not_mem hnd.1
        by_cases hp : p (k₀, s₀)
        · simp [List.filter_cons, hp, mapLookup]
        · have hfilter : List.filter p ((k₀, s₀) :: rest) = rest.filter p := by
            simp [List.filter_cons, hp]
          rw [hfilter, ih hnd.2, hrest]
          simp [mapLookup, hp]
      · by_cases hp : p (k₀, s₀)
        · have hfilter : List.filter p ((k₀, s₀) :: rest) =
              (k₀, s₀) :: rest.filter p := by
            simp [List.filter_cons, hp]
          rw [hfilter]
          simp only [mapLookup, if_neg hk]
          exact ih hnd.2
        · have hfilter : List.filter p ((k₀, s₀) :: rest) = rest.filter p := by
            simp [List.filter_cons, hp]
          rw [hfilter]
          simp only [mapLookup, if_neg hk]
          exact ih hnd.2

/-! ### Characterization of the store operations -/

theorem Save_eq (st : State K V) (i : String) (bag : Option Nat) (now : Int) :
    Save st i bag now =
      ⟨(st.heap.alloc (bagContents st.heap bag)).1,
        mapInsert st.data i ⟨st.heap.mem.length, now⟩, st.maxAge⟩ := rfl

theorem getInternal_absent {st : State K V} {i : String} (u : Bool) (now : Int)
    (h : mapLookup st.data i = none) : getInternal st i u now = (st, none) := by
  simp [getInternal, h]

theorem getInternal_expired {st : State K V} {i : String} {s : RamSession}
    (u : Bool) {now : Int} (h : mapLookup st.data i = some s)
    (he : s.Expired now st.maxAge = true) :
    getInternal st i u now = (st, none) := by
  simp [getInternal, h, he]

theorem getInternal_found_refresh {st : State K V} {i : String}
    {s : RamSession} {now : Int} (h : mapLookup st.data i = some s)
    (he : s.Expired now st.maxAge = false) :
    getInternal st i true now =
      (⟨st.heap, mapInsert st.data i ⟨s.dataAddr, now⟩, st.maxAge⟩,
        some s.dataAddr) := by
  simp [getInternal, h, he]

theorem getInternal_found_poll {st : State K V} {i : String}
    {s : RamSession} {now : Int} (h : mapLookup st.data i = some s)
    (he : s.Expired now st.maxAge = false) :
    getInternal st i false now = (st, some s.dataAddr) := by
  simp [getInternal, h, he]

theorem Get_absent {st : State K V} {i : String} (now : Int)
    (h : mapLookup st.data i = none) : Get st i now = (st, none) := by
  simp [Get, getInternal_absent true now h]

theorem Get_expired {st : State K V} {i : String} {s : RamSession}
    {now : Int} (h : mapLookup st.data i = some s)
    (he : s.Expired now st.maxAge = true) : Get st i now = (st, none) := by
  simp [Get, getInternal_expired true h he]

theorem Get_found {st : State K V} {i : String} {s : RamSession} {now : Int}
    (h : mapLookup st.data i = some s)
    (he : s.Expired now st.maxAge = false) :
    Get st i now =
      (⟨(st.heap.alloc (st.heap.read s.dataAddr)).1,
          mapInsert st.data i ⟨s.dataAddr, now⟩, st.maxAge⟩,
        some st.heap.mem.length) := by
  simp [Get, getInternal_found_refresh h he, copyMap, bagContents, Heap.alloc]

theorem Poll_absent {st : State K V} {i : String} (now : Int)
    (h : mapLookup st.data i = none) : Poll st i now = (st, none) := by
  simp [Poll, getInternal_absent false now h]

theorem Poll_expired {st : State K V} {i : String} {s : RamSession}
    {now : Int} (h : mapLookup st.data i = some s)
    (he : s.Expired now st.maxAge = true) : Poll st i now = (st, none) := by
  simp [Poll, getInternal_expired false h he]

theorem Poll_found {st : State K V} {i : String} {s : RamSession} {now : Int}
    (h : mapLookup st.data i = some s)
    (he : s.Expired now st.maxAge = false) :
    Poll st i now =
      (⟨(st.heap.alloc (st.heap.read s.dataAddr)).1, st.data, st.maxAge⟩,
        some st.heap.mem.length) := by
  simp [Poll, getInternal_found_poll h he, copyMap, bagContents, Heap.alloc]

theorem Poll_data (st : State K V) (i : String) (now : Int) :
    (Poll st i now).1.data = st.data := by
  cases hl : mapLookup st.data i with
  | none => rw [Poll_absent now hl]
  | some s =>
      cases he : s.Expired now st.maxAge with
      | true => rw [Poll_expired hl he]
      | false => rw [Poll_found hl he]

theorem Poll_maxAge (st : State K V) (i : String) (now : Int) :
    (Poll st i now).1.maxAge = st.maxAge := by
  cases hl : mapLookup st.data i with
  | none => rw [Poll_absent now hl]
  | some s =>
      cases he : s.Expired now st.maxAge with
      | true => rw [Poll_expired hl he]
      | false => rw [Poll_found hl he]

theorem Get_maxAge (st : State K V) (i : String) (now : Int) :
    (Get st i now).1.maxAge = st.maxAge := by
  cases hl : mapLookup st.data i with
  | none => rw [Get_absent now hl]
  | some s =>
      cases he : s.Expired now st.maxAge with
      | true => rw [Get_expired hl he]
      | false => rw [Get_found hl he]

theorem pollMany_data (st : State K V) (i : String) (ts : List Int) :
    (pollMany st i ts).data = st.data := by
  induction ts generalizing st with
  | nil => rfl
  | cons t rest ih =>
      simp only [pollMany, List.foldl_cons] at ih ⊢
      rw [ih, Poll_data]

theorem pollMany_maxAge (st : State K V) (i : String) (ts : List Int) :
    (pollMany st i ts).maxAge = st.maxAge := by
  induction ts generalizing st with
  | nil => rfl
  | cons t rest ih =>
      simp only [pollMany, List.foldl_cons] at ih ⊢
      rw [ih, Poll_maxAge]

theorem Expired_iff (r : RamSession) (now maxAge : Int) :
    r.Expired now maxAge = true ↔ now - r.lastAccessed > maxAge := by
  simp [RamSession.Expired]

theorem Expired_eq_false (r : RamSession) (now maxAge : Int)
    (h : now - r.lastAccessed ≤ maxAge) : r.Expired now maxAge = false := by
  simp only [RamSession.Expired, decide_eq_false_iff_not, not_lt]
  exact h

theorem Expired_eq_true (r : RamSession) (now maxAge : Int)
    (h : maxAge < now - r.lastAccessed) : r.Expired now maxAge = true := by
  simp only [RamSession.Expired, decide_eq_true_eq]
  exact h

/-! ### `fetch`-level lemmas shared by `Get` and `Poll` -/

theorem fetch_absent {st : State K V} {i : String} (u : Bool) (now : Int)
    (h : mapLookup st.data i = none) : fetch u st i now = (st, none) := by
  cases u with
  | true => simp [fetch, Get_absent now h]
  | false => simp [fetch, Poll_absent now h]

theorem fetch_expired {st : State K V} {i : String} {s : RamSession}
    (u : Bool) {now : Int} (h : mapLookup st.data i = some s)
    (he : s.Expired now st.maxAge = true) : fetch u st i now = (st, none) := by
  cases u with
  | true => simp [fetch, Get_expired h he]
  | false => simp [fetch, Poll_expired h he]

theorem fetch_found_snd {st : State K V} {i : String} {s : RamSession}
    (u : Bool) {now : Int} (h : mapLookup st.data i = some s)
    (he : s.Expired now st.maxAge = false) :
    (fetch u st i now).2 = some st.heap.mem.length := by
  cases u with
  | true => simp [fetch, Get_found h he]
  | false => simp [fetch, Poll_found h he]

theorem resultContent_fetch_found {st : State K V} {i : String}
    {s : RamSession} (u : Bool) {now : Int}
    (h : mapLookup st.data i = some s)
    (he : s.Expired now st.maxAge = false) :
    resultContent (fetch u st i now) = some (st.heap.read s.dataAddr) := by
  cases u with
  | true =>
      rw [show fetch true st i now = Get st i now from rfl, Get_found h he]
      simp only [resultContent, Option.map_some]
      exact congrArg some (Heap.read_alloc_self st.heap _)
  | false =>
      rw [show fetch false st i now = Poll st i now from rfl, Poll_found h he]
      simp only [resultContent, Option.map_some]
      exact congrArg some (Heap.read_alloc_self st.heap _)

theorem fetch_some_addr {st : State K V} {i : String} {now : Int} {u : Bool}
    {a' : Nat} (h : (fetch u st i now).2 = some a') :
    a' = st.heap.mem.length := by
  cases hl : mapLookup st.data i with
  | none => rw [fetch_absent u now hl] at h; simp at h
  | some s =>
      cases he : s.Expired now st.maxAge with
      | true => rw [fetch_expired u hl he] at h; simp at h
      | false =>
          rw [fetch_found_snd u hl he] at h
          exact (Option.some.injEq _ _ ▸ h).symm

/-- Every bag address stored after a read started from a well-formed state
is an address that already existed before the read. -/
theorem fetch_dataAddr_lt {st : State K V} (hwf : wf st = true)
    {i i₂ : String} {now : Int} {u : Bool} {s₂ : RamSession}
    (h : mapLookup ((fetch u st i now).1).data i₂ = some s₂) :
    s₂.dataAddr < st.heap.mem.length := by
  cases u with
  | false =>
      rw [show (fetch false st i now).1 = (Poll st i now).1 by rfl,
        Poll_data] at h
      exact wf_lookup hwf h
  | true =>
      cases hl : mapLookup st.data i with
      | none =>
          rw [show (fetch true st i now).1 = (Get st i now).1 by rfl,
            Get_absent now hl] at h
          exact wf_lookup hwf h
      | some s =>
          cases he : s.Expired now st.maxAge with
          | true =>
              rw [show (fetch true st i now).1 = (Get st i now).1 by rfl,
                Get_expired hl he] at h
              exact wf_lookup hwf h
          | false =>
              rw [show (fetch true st i now).1 = (Get st i now).1 by rfl,
                Get_found hl he] at h
              by_cases hii : i₂ = i
              · subst hii
                rw [mapLookup_mapInsert_self] at h
                cases h
                simpa using wf_lookup hwf hl
              · rw [mapLookup_mapInsert_ne _ _ hii] at h
                exact wf_lookup hwf h

/-- A caller mutating, in place, the map object at address `a`: the store's
own fields are untouched. -/
def State.mutateBag (st : State K V) (a : Nat) (k : K) (v : V) : State K V :=
  ⟨st.heap.mutate a k v, st.data, st.maxAge⟩

/-- Frame lemma: an in-place mutation of a map object that no entry of the
session map references does not change what `Get`/`Poll` return. -/
theorem resultContent_fetch_mutateBag (st : State K V) (u : Bool)
    (i₂ : String) (now' : Int) (m : Nat) (k : K) (v : V)
    (hm : ∀ s, mapLookup st.data i₂ = some s → s.dataAddr ≠ m) :
    resultContent (fetch u (st.mutateBag m k v) i₂ now') =
      resultContent (fetch u st i₂ now') := by
  have hdata : (st.mutateBag m k v).data = st.data := rfl
  have hage : (st.mutateBag m k v).maxAge = st.maxAge := rfl
  cases hl : mapLookup st.data i₂ with
  | none =>
      rw [fetch_absent u now' (hdata ▸ hl), fetch_absent u now' hl]
      simp [resultContent]
  | some s =>
      cases he : s.Expired now' st.maxAge with
      | true =>
          rw [fetch_expired u (hdata ▸ hl) (hage ▸ he),
            fetch_expired u hl he]
          simp [resultContent]
      | false =>
          rw [resultContent_fetch_found u (hdata ▸ hl) (hage ▸ he),
            resultContent_fetch_found u hl he]
          rw [show (st.mutateBag m k v).heap = st.heap.mutate m k v by rfl]
          rw [Heap.read_mutate_ne st.heap m s.dataAddr k v (hm s hl)]

theorem Save_maxAge (st : State K V) (i : String) (bag : Option Nat)
    (T : Int) : (Save st i bag T).maxAge = st.maxAge := rfl

theorem Get1_data_found {st : State K V} {i : String} {s : RamSession}
    {now : Int} (h : mapLookup st.data i = some s)
    (he : s.Expired now st.maxAge = false) :
    ((Get st i now).1).data = mapInsert st.data i ⟨s.dataAddr, now⟩ := by
  rw [Get_found h he]

theorem Get1_heap_found {st : State K V} {i : String} {s : RamSession}
    {now : Int} (h : mapLookup st.data i = some s)
    (he : s.Expired now st.maxAge = false) :
    ((Get st i now).1).heap = (st.heap.alloc (st.heap.read s.dataAddr)).1 := by
  rw [Get_found h he]

/-! ### Claim theorems -/

theorem Save_lookup_self (st : State K V) (i : String) (bag : Option Nat)
    (T : Int) :
    mapLookup (Save st i bag T).data i =
      some ⟨st.heap.mem.length, T⟩ := by
  rw [Save_eq]
  exact mapLookup_mapInsert_self _ _ _

/-- C1: with maxAge `M`, an entry saved at time `T` is still returned by
`Get` and `Poll` at time `T + M` (inactivity exactly `M`), and is reported
as not found by both at time `T + M + 1`; `Expired` is the strict
comparison `now - lastAccessed > maxAge`. -/
theorem ramstore_c1_expiry_boundary (st : State K V) (i : String)
    (bag : Option Nat) (T : Int) :
    (resultContent (Get (Save st i bag T) i (T + st.maxAge)) =
        some (bagContents st.heap bag) ∧
      resultContent (Poll (Save st i bag T) i (T + st.maxAge)) =
        some (bagContents st.heap bag) ∧
      (Get (Save st i bag T) i (T + st.maxAge + 1)).2 = none ∧
      (Poll (Save st i bag T) i (T + st.maxAge + 1)).2 = none) ∧
    ∀ (s : RamSession) (now M : Int),
      s.Expired now M = true ↔ now - s.lastAccessed > M := by
  have hl := Save_lookup_self st i bag T
  have hne : RamSession.Expired ⟨st.heap.mem.length, T⟩ (T + st.maxAge)
      (Save st i bag T).maxAge = false :=
    Expired_eq_false _ _ _ (by show T + st.maxAge - T ≤ st.maxAge; omega)
  have hex : RamSession.Expired ⟨st.heap.mem.length, T⟩ (T + st.maxAge + 1)
      (Save st i bag T).maxAge = true :=
    Expired_eq_true _ _ _ (by show st.maxAge < T + st.maxAge + 1 - T; omega)
  have hread : (Save st i bag T).heap.read st.heap.mem.length =
      bagContents st.heap bag := Heap.read_alloc_self st.heap _
  refine ⟨⟨?_, ?_, ?_, ?_⟩, fun s now M => Expired_iff s now M⟩
  · have h := resultContent_fetch_found true hl hne
    rw [show fetch true (Save st i bag T) i (T + st.maxAge) =
        Get (Save st i bag T) i (T + st.maxAge) from rfl] at h
    rw [h]
    exact congrArg some hread
  · have h := resultContent_fetch_found false hl hne
    rw [show fetch false (Save st i bag T) i (T + st.maxAge) =
        Poll (Save st i bag T) i (T + st.maxAge) from rfl] at h
    rw [h]
    exact congrArg some hread
  · rw [Get_expired hl hex]
  · rw [Poll_expired hl hex]

/-- C4: `Get` refreshes `lastAccessed` to `now` on every successful read
and `Poll` never modifies it: after a save at `T` with maxAge `M`, a `Get`
at `T + M` followed by a `Get` at `(T + M) + M` still finds the entry,
while any sequence of polls followed by a `Poll` at `T + M + 1` finds it
expired. -/
theorem ramstore_c4_get_refreshes_poll_does_not (st : State K V)
    (i : String) (bag : Option Nat) (T : Int) :
    (∀ (st₀ : State K V) (i₀ : String) (now : Int) (s : RamSession),
        mapLookup st₀.data i₀ = some s →
        s.Expired now st₀.maxAge = false →
        mapLookup ((Get st₀ i₀ now).1).data i₀ = some ⟨s.dataAddr, now⟩) ∧
    (∀ (st₀ : State K V) (i₀ : String) (now : Int),
        (Poll st₀ i₀ now).1.data = st₀.data) ∧
    resultContent
        (Get ((Get (Save st i bag T) i (T + st.maxAge)).1) i
          (T + st.maxAge + st.maxAge)) =
      some (bagContents st.heap bag) ∧
    ∀ ts : List Int,
      (Poll (pollMany (Save st i bag T) i ts) i (T + st.maxAge + 1)).2 =
        none := by
  refine ⟨?_, ?_, ?_, ?_⟩
  · intro st₀ i₀ now s h he
    rw [Get_found h he]
    exact mapLookup_mapInsert_self _ _ _
  · intro st₀ i₀ now
    exact Poll_data st₀ i₀ now
  · have hl1 := Save_lookup_self st i bag T
    have hne1 : RamSession.Expired ⟨st.heap.mem.length, T⟩ (T + st.maxAge)
        (Save st i bag T).maxAge = false :=
      Expired_eq_false _ _ _ (by show T + st.maxAge - T ≤ st.maxAge; omega)
    have hl2 : mapLookup ((Get (Save st i bag T) i (T + st.maxAge)).1).data
        i = some ⟨st.heap.mem.length, T + st.maxAge⟩ := by
      rw [Get1_data_found hl1 hne1]
      exact mapLookup_mapInsert_self _ _ _
    have hne2 : RamSession.Expired ⟨st.heap.mem.length, T + st.maxAge⟩
        (T + st.maxAge + st.maxAge)
        ((Get (Save st i bag T) i (T + st.maxAge)).1).maxAge = false := by
      rw [Get_maxAge, Save_maxAge]
      exact Expired_eq_false _ _ _
        (by show T + st.maxAge + st.maxAge - (T + st.maxAge) ≤ st.maxAge
            omega)
    have h := resultContent_fetch_found true hl2 hne2
    rw [show fetch true ((Get (Save st i bag T) i (T + st.maxAge)).1) i
        (T + st.maxAge + st.maxAge) =
        Get ((Get (Save st i bag T) i (T + st.maxAge)).1) i
          (T + st.maxAge + st.maxAge) from rfl] at h
    rw [h]
    refine congrArg some ?_
    rw [show RamSession.dataAddr ⟨st.heap.mem.length, T + st.maxAge⟩ =
        st.heap.mem.length from rfl]
    rw [Get1_heap_found hl1 hne1]
    rw [show RamSession.dataAddr ⟨st.heap.mem.length, T⟩ =
        st.heap.mem.length from rfl]
    rw [Heap.read_alloc_fst]
    · exact Heap.read_alloc_self st.heap _
    · rw [show (Save st i bag T).heap =
          (st.heap.alloc (bagContents st.heap bag)).1 from rfl,
        Heap.alloc_length]
      exact Nat.lt_succ_self _
  · intro ts
    have hl : mapLookup (pollMany (Save st i bag T) i ts).data i =
        some ⟨st.heap.mem.length, T⟩ := by
      rw [pollMany_data]
      exact Save_lookup_self st i bag T
    have hex : RamSession.Expired ⟨st.heap.mem.length, T⟩ (T + st.maxAge + 1)
        (pollMany (Save st i bag T) i ts).maxAge = true := by
      rw [pollMany_maxAge]
      exact Expired_eq_true _ _ _
        (by show (Save st i bag T).maxAge < T + st.maxAge + 1 - T
            show st.maxAge < T + st.maxAge + 1 - T
            omega)
    rw [Poll_expired hl hex]

/-- C6: `Get` and `Poll` never remove entries and never refresh an expired
entry: every key's presence in the session map is unchanged by a read, an
expired or absent key yields the `nil` result, and on an expired entry the
whole state is left exactly as it was (the entry stays in the map until
`Purge`). -/
theorem ramstore_c6_reads_never_remove (st : State K V) (i : String)
    (now : Int) :
    (∀ i₂, (mapLookup ((Get st i now).1).data i₂).isSome =
        (mapLookup st.data i₂).isSome) ∧
    (Poll st i now).1.data = st.data ∧
    (∀ s, mapLookup st.data i = some s → s.Expired now st.maxAge = true →
        Get st i now = (st, none) ∧ Poll st i now = (st, none)) ∧
    (mapLookup st.data i = none →
        Get st i now = (st, none) ∧ Poll st i now = (st, none)) := by
  refine ⟨?_, Poll_data st i now, ?_, ?_⟩
  · intro i₂
    cases hl : mapLookup st.data i with
    | none => rw [Get_absent now hl]
    | some s =>
        cases he : s.Expired now st.maxAge with
        | true => rw [Get_expired hl he]
        | false =>
            rw [Get1_data_found hl he]
            exact mapLookup_isSome_mapInsert st.data i i₂ _ (by rw [hl]; rfl)
  · intro s hl he
    exact ⟨Get_expired hl he, Poll_expired hl he⟩
  · intro hl
    exact ⟨Get_absent now hl, Poll_absent now hl⟩

/-- C8: the wrapper operations have no failure modes: `GetData` returns
`(Get(id), nil)`, `SaveData` returns `nil`, the poller view's `GetData`
returns `(Poll(id), nil)`, and an absent key gives the `nil` data result
paired with the `nil` error, never an error. -/
theorem ramstore_c8_no_failure_modes (st : State K V) (i : String)
    (bag : Option Nat) (now : Int) :
    GetData st i now = ((Get st i now).1, ((Get st i now).2, none)) ∧
    SaveData st i bag now = (Save st i bag now, none) ∧
    pollerGetData st i now = ((Poll st i now).1, ((Poll st i now).2, none)) ∧
    (mapLookup st.data i = none →
        (GetData st i now).2 = (none, none) ∧
        (pollerGetData st i now).2 = (none, none)) := by
  have hGD : GetData st i now = ((Get st i now).1, ((Get st i now).2, none)) := by
    rcases hg : Get st i now with ⟨st', r⟩
    simp [GetData, hg]
  have hPD : pollerGetData st i now =
      ((Poll st i now).1, ((Poll st i now).2, none)) := by
    rcases hp : Poll st i now with ⟨st', r⟩
    simp [pollerGetData, hp]
  refine ⟨hGD, rfl, hPD, ?_⟩
  intro hl
  rw [hGD, hPD, Get_absent now hl, Poll_absent now hl]
  exact ⟨rfl, rfl⟩

/-- C10: saving a `nil` bag stores an empty non-`nil` map: a `Get` or
`Poll` within the expiry window returns a real map object with no entries,
distinguishable from the `nil` not-found result. -/
theorem ramstore_c10_nil_bag_stored_empty (st : State K V) (i : String)
    (T d : Int) (hd : d ≤ st.maxAge) :
    (∃ a', (Get (Save st i none T) i (T + d)).2 = some a' ∧
        (Get (Save st i none T) i (T + d)).1.heap.read a' = []) ∧
    ∃ a', (Poll (Save st i none T) i (T + d)).2 = some a' ∧
        (Poll (Save st i none T) i (T + d)).1.heap.read a' = [] := by
  have hl := Save_lookup_self st i none T
  have hne : RamSession.Expired ⟨st.heap.mem.length, T⟩ (T + d)
      (Save st i none T).maxAge = false := by
    rw [Save_maxAge]
    exact Expired_eq_false _ _ _ (by show T + d - T ≤ st.maxAge; omega)
  constructor
  · refine ⟨(Save st i none T).heap.mem.length, ?_, ?_⟩
    · rw [Get_found hl hne]
    · rw [Get_found hl hne]
      exact Eq.trans (Heap.read_alloc_self (Save st i none T).heap _)
        (Heap.read_alloc_self st.heap [])
  · refine ⟨(Save st i none T).heap.mem.length, ?_, ?_⟩
    · rw [Poll_found hl hne]
    · rw [Poll_found hl hne]
      exact Eq.trans (Heap.read_alloc_self (Save st i none T).heap _)
        (Heap.read_alloc_self st.heap [])

/-- C2: for every key and bag, `Save(k, b)` followed immediately by
`Get(k)` returns a map whose contents equal those of `b` but whose object
is neither `b` nor the bag stored inside the store. -/
theorem ramstore_c2_save_get_fresh_copy (st : State K V) (i : String)
    (bag : Option Nat) (T : Int) (hM : 0 ≤ st.maxAge)
    (hb : ∀ x, bag = some x → x < st.heap.mem.length) :
    ∃ a', (Get (Save st i bag T) i T).2 = some a' ∧
      (Get (Save st i bag T) i T).1.heap.read a' = bagContents st.heap bag ∧
      (∀ x, bag = some x → a' ≠ x) ∧
      ∀ s, mapLookup (Save st i bag T).data i = some s → a' ≠ s.dataAddr := by
  have hl := Save_lookup_self st i bag T
  have hne : RamSession.Expired ⟨st.heap.mem.length, T⟩ T
      (Save st i bag T).maxAge = false := by
    rw [Save_maxAge]
    exact Expired_eq_false _ _ _ (by show T - T ≤ st.maxAge; omega)
  have hlen : (Save st i bag T).heap.mem.length = st.heap.mem.length + 1 := by
    rw [show (Save st i bag T).heap =
        (st.heap.alloc (bagContents st.heap bag)).1 from rfl,
      Heap.alloc_length]
  refine ⟨(Save st i bag T).heap.mem.length, ?_, ?_, ?_, ?_⟩
  · rw [Get_found hl hne]
  · rw [Get_found hl hne]
    exact Eq.trans (Heap.read_alloc_self (Save st i bag T).heap _)
      (Heap.read_alloc_self st.heap _)
  · intro x hx
    have := hb x hx
    omega
  · intro s hs
    rw [hl] at hs
    cases hs
    show (Save st i bag T).heap.mem.length ≠ st.heap.mem.length
    omega

/-- C5: `Purge()` removes exactly the entries whose inactivity strictly
exceeds `maxAge` at call time; every surviving entry keeps its bag address
and `lastAccessed`, the heap of bags is untouched, and `maxAge` is
unchanged. -/
theorem ramstore_c5_purge_exact (st : State K V) (hwf : wf st = true)
    (now : Int) :
    (Purge st now).heap = st.heap ∧
    (Purge st now).maxAge = st.maxAge ∧
    ∀ i, mapLookup (Purge st now).data i =
      match mapLookup st.data i with
      | none => none
      | some s => if s.Expired now st.maxAge then none else some s := by
  refine ⟨rfl, rfl, ?_⟩
  intro i
  rw [show (Purge st now).data =
      st.data.filter (fun q => !(q.2.Expired now st.maxAge)) from rfl]
  rw [mapLookup_filter _ _ i (wf_nodup hwf)]
  cases hL : mapLookup st.data i with
  | none => rfl
  | some s => cases hE : s.Expired now st.maxAge <;> simp [hE]

/-- C3: caller-side mutation never leaks into the store: after a `Get` or
`Poll` returns a bag, mutating that bag in place changes no later `Get` or
`Poll` result, and after `Save(k, b)` mutating the caller's object `b`
changes no later `Get` or `Poll` on `k` — every handoff is a fresh copy,
never the internal map object. -/
theorem ramstore_c3_mutation_is_invisible (st : State K V)
    (hwf : wf st = true) (u₁ u₂ : Bool) (i i₂ : String) (now now' : Int)
    (k : K) (v : V) :
    (∀ a', (fetch u₁ st i now).2 = some a' →
        resultContent
            (fetch u₂ (((fetch u₁ st i now).1).mutateBag a' k v) i₂ now') =
          resultContent (fetch u₂ ((fetch u₁ st i now).1) i₂ now')) ∧
    ∀ b, b < st.heap.mem.length →
        resultContent
            (fetch u₂ ((Save st i (some b) now).mutateBag b k v) i now') =
          resultContent (fetch u₂ (Save st i (some b) now) i now') := by
  constructor
  · intro a' h
    apply resultContent_fetch_mutateBag
    intro s₂ hs₂
    have hlt := fetch_dataAddr_lt hwf hs₂
    rw [fetch_some_addr h]
    omega
  · intro b hb
    apply resultContent_fetch_mutateBag
    intro s₂ hs₂
    rw [Save_lookup_self st i (some b) now] at hs₂
    cases hs₂
    show st.heap.mem.length ≠ b
    omega

/-! ### The concrete scenario of C7 (`TestGetAndSave`, maxAge 900) -/

/-- The two caller-side bags of the scenario, already on the heap: address
0 holds `{5: 8}` and address 1 holds `{5: 10}`. -/
def heap7 : Heap Int Int := ⟨[[(5, 8)], [(5, 10)]]⟩

/-- A fresh store with `maxAge = 900` next to the two scenario bags. -/
def st7 : State Int Int := ⟨heap7, [], 900⟩

/-- The fake clock's start time used by the repository's tests. -/
def t7 : Int := 1234567890

/-- Both keys saved at `t0`. -/
def scenario7a : State Int Int :=
  Save (Save st7 "key" (some 0) t7) "key2" (some 1) t7

/-- After `Get("key")` at `t0 + 899`. -/
def scenario7b : State Int Int := (Get scenario7a "key" (t7 + 899)).1

/-- After `Get("key2")` at `t0 + 900`. -/
def scenario7c : State Int Int := (Get scenario7b "key2" (t7 + 900)).1

/-- After `Get("key")` at `t0 + 1800`. -/
def scenario7d : State Int Int := (Get scenario7c "key" (t7 + 1800)).1

/-- After `Get("key2")` at `t0 + 1800`. -/
def scenario7e : State Int Int := (Get scenario7d "key2" (t7 + 1800)).1

/-- C7 counterexample: in the spec's scenario, at absolute time `t0 + 900`
(after the `Get("key")` at `t0 + 899` refreshed the entry's timer and the
`Get("key2")` at `t0 + 900`), `Get("key")` still returns `{5: 8}` — not
the claimed not-found result, because its inactivity is 1 second, not
more than 900. -/
theorem ramstore_c7_counterexample :
    resultContent (Get scenario7c "key" (t7 + 900)) = some [(5, 8)] ∧
    (Get scenario7c "key" (t7 + 900)).2 ≠ none := by
  constructor
  · decide
  · decide

/-- C7 amended: the scenario of `TestGetAndSave`: both keys saved at `t0`
with maxAge 900; `Get("key")` at `t0 + 899` returns `{5: 8}`;
`Get("key2")` at `t0 + 900` returns `{5: 10}` (boundary, still valid);
after advancing a further 900 seconds to `t0 + 1800`, `Get("key")` is
not found (inactivity 901 since its refresh at `t0 + 899`) while
`Get("key2")` still returns `{5: 10}`; after advancing a further 901
seconds to `t0 + 2701`, both are not found. -/
theorem ramstore_c7_amended_scenario :
    resultContent (Get scenario7a "key" (t7 + 899)) = some [(5, 8)] ∧
    resultContent (Get scenario7b "key2" (t7 + 900)) = some [(5, 10)] ∧
    (Get scenario7c "key" (t7 + 1800)).2 = none ∧
    resultContent (Get scenario7d "key2" (t7 + 1800)) = some [(5, 10)] ∧
    (Get scenario7e "key" (t7 + 2701)).2 = none ∧
    (Get ((Get scenario7e "key" (t7 + 2701)).1) "key2" (t7 + 2701)).2 =
      none := by
  refine ⟨?_, ?_, ?_, ?_, ?_, ?_⟩ <;> decide

/-! ### Witness instances at concrete inputs -/

/-- A concrete heap: one caller-side bag `{5: 8}` at address 0. -/
def heapW : Heap Int Int := ⟨[[(5, 8)]]⟩

/-- A concrete fresh store with `maxAge = 900`. -/
def stW : State Int Int := ⟨heapW, [], 900⟩

/-- C1 witness: the boundary read at inactivity exactly 900. -/
theorem ramstore_c1_witness :
    resultContent (Get (Save stW "k" (some 0) 0) "k" 900) = some [(5, 8)] :=
  (ramstore_c1_expiry_boundary stW "k" (some 0) 0).1.1

/-- C2 witness: a save-then-get at time 5 on the concrete store. -/
theorem ramstore_c2_witness :
    ∃ a', (Get (Save stW "k" (some 0) 5) "k" 5).2 = some a' ∧
      (Get (Save stW "k" (some 0) 5) "k" 5).1.heap.read a' =
        bagContents stW.heap (some 0) ∧
      (∀ x, (some 0 : Option Nat) = some x → a' ≠ x) ∧
      ∀ s, mapLookup (Save stW "k" (some 0) 5).data "k" = some s →
        a' ≠ s.dataAddr :=
  ramstore_c2_save_get_fresh_copy stW "k" (some 0) 5 (by decide)
    (by intro x hx; cases hx; decide)

/-- C3 witness: mutating the bag a concrete `Get` returned. -/
theorem ramstore_c3_witness :
    resultContent
        (fetch true
          (((fetch true (Save stW "k" (some 0) 0) "k" 0).1).mutateBag 2 5 99)
          "k" 1) =
      resultContent
        (fetch true ((fetch true (Save stW "k" (some 0) 0) "k" 0).1) "k" 1) :=
  (ramstore_c3_mutation_is_invisible (Save stW "k" (some 0) 0) (by decide)
    true true "k" "k" 0 1 5 99).1 2 (by decide)

/-- C4 witness: a concrete successful `Get` refreshes `lastAccessed`. -/
theorem ramstore_c4_witness :
    mapLookup ((Get (Save stW "k" (some 0) 0) "k" 5).1).data "k" =
      some ⟨1, 5⟩ :=
  (ramstore_c4_get_refreshes_poll_does_not stW "k" (some 0) 0).1
    (Save stW "k" (some 0) 0) "k" 5 ⟨1, 0⟩ (by decide) (by decide)

/-- C5 witness: purging at time 1000 removes the entry saved at time 0. -/
theorem ramstore_c5_witness :
    mapLookup (Purge (Save stW "k" (some 0) 0) 1000).data "k" = none :=
  (ramstore_c5_purge_exact (Save stW "k" (some 0) 0) (by decide) 1000).2.2 "k"

/-- C6 witness: reading an absent key on the concrete store. -/
theorem ramstore_c6_witness :
    Get stW "q" 0 = (stW, none) ∧ Poll stW "q" 0 = (stW, none) :=
  (ramstore_c6_reads_never_remove stW "q" 0).2.2.2 (by decide)

/-- C8 witness: an absent key on the concrete store gives the nil data and
the nil error. -/
theorem ramstore_c8_witness :
    (GetData stW "q" 0).2 = (none, none) ∧
    (pollerGetData stW "q" 0).2 = (none, none) :=
  (ramstore_c8_no_failure_modes stW "q" (some 0) 0).2.2.2 (by decide)

/-- C10 witness: saving a nil bag and reading it right away. -/
theorem ramstore_c10_witness :
    (∃ a', (Get (Save stW "k" none 3) "k" (3 + 0)).2 = some a' ∧
        (Get (Save stW "k" none 3) "k" (3 + 0)).1.heap.read a' = []) ∧
    ∃ a', (Poll (Save stW "k" none 3) "k" (3 + 0)).2 = some a' ∧
        (Poll (Save stW "k" none 3) "k" (3 + 0)).1.heap.read a' = [] :=
  ramstore_c10_nil_bag_stored_empty stW "k" 3 0 (by decide)

end Ramstore
